import Mathlib

/-!
Shallow embedding of the output-normalization pipeline of
`src/server/vision_server.py` (the "Normalizer"): the functions
`parse_json_from_text`, `map_text_to_label`, and the text-to-result portion
of the `classify` handler.  The image/model part of the handler is an
external collaborator producing the input text, so the embedding takes that
text as its input, exactly as the pipeline does.

Python floats are modelled as exact decimal numbers `m / 10 ^ k`
(`DecNum`), kept in a canonical form that models float identity
(`0.550 == 0.55` as Python floats).  All pipeline computations are over
`Int`/`Nat`/`Char`/`String` and are executable by kernel reduction; `ℚ`
enters only through the interpretation `DecNum.toRat` used in theorem
statements.
-/

namespace VisionServer

/-- Model of a Python float whose value is the exact decimal `m / 10 ^ k`.
Every float the pipeline manipulates arises from parsing a decimal literal
or from the literals `0.5` / `0.55` / `0.0` / `1.0`, so this carries no
rounding; a float is kept canonical (`k = 0`, or `m` not a multiple of 10),
which models the fact that equal Python floats are identical. -/
structure DecNum where
  m : ℤ
  k : ℕ
deriving DecidableEq

/-- The rational value of a decimal number; used in theorem statements. -/
def DecNum.toRat (c : DecNum) : ℚ := (c.m : ℚ) / 10 ^ c.k

/-- Reduce `m / 10 ^ k` to canonical form by stripping factors of 10. -/
def canonAux : ℤ → ℕ → DecNum
  | m, 0 => ⟨m, 0⟩
  | m, k + 1 => if m % 10 = 0 then canonAux (m / 10) k else ⟨m, k + 1⟩

def DecNum.canon (c : DecNum) : DecNum := canonAux c.m c.k

/-- Canonical form of a decimal number. -/
def IsCanon (c : DecNum) : Prop := c.k = 0 ∨ c.m % 10 ≠ 0

instance decIsCanon (c : DecNum) : Decidable (IsCanon c) := by
  unfold IsCanon
  infer_instance

/-- Comparison `a < b` of decimal numbers (models float comparison). -/
def dLt (a b : DecNum) : Bool := a.m * 10 ^ b.k < b.m * 10 ^ a.k

/-- Model of Python `min(a, b)`: returns `b` exactly when `b < a`. -/
def pyMin (a b : DecNum) : DecNum := if dLt b a then b else a

/-- Model of Python `max(a, b)`: returns `b` exactly when `a < b`. -/
def pyMax (a b : DecNum) : DecNum := if dLt a b then b else a

/-- The float `0.0`. -/
def dZero : DecNum := ⟨0, 0⟩

/-- The float `1.0`. -/
def dOne : DecNum := ⟨1, 0⟩

/-- The float `0.5` (default confidence of the strict-JSON tier). -/
def dHalf : DecNum := ⟨5, 1⟩

/-- The float `0.55` (fixed confidence of the keyword tier). -/
def dKw : DecNum := ⟨55, 2⟩

/-- The clamp `max(0.0, min(1.0, conf))` from `parse_json_from_text`. -/
def clampConf (c : DecNum) : DecNum := pyMax dZero (pyMin dOne c)

/-! ### Character and digit helpers -/

def isDigitCh (c : Char) : Bool := 48 ≤ c.toNat && c.toNat ≤ 57

/-- JSON whitespace accepted between tokens by `json.loads`. -/
def isJsonWs (c : Char) : Bool := c = ' ' || c = '\t' || c = '\n' || c = '\r'

/-- Whitespace removed by Python `str.strip()` / accepted by `float()`
around a numeric literal (the ASCII whitespace characters). -/
def isPyWs (c : Char) : Bool :=
  c = ' ' || c = '\t' || c = '\n' || c = '\r' || c = '\x0b' || c = '\x0c'

def skipWs (cs : List Char) : List Char := cs.dropWhile isJsonWs

/-- Value of a big-endian list of decimal digit characters. -/
def digitsVal (ds : List Char) : ℕ := ds.foldl (fun a c => 10 * a + (c.toNat - 48)) 0

/-- The decimal digits of `n % 10 ^ k`, zero-padded to exactly `k` digits. -/
def padDigits : ℕ → ℕ → List Char
  | 0, _ => []
  | k + 1, n => padDigits k (n / 10) ++ [Char.ofNat (48 + n % 10)]

/-- Decimal digits of a natural number, no leading zeros. -/
def natReprCs (n : ℕ) : List Char :=
  let ds := (padDigits (n + 1) n).dropWhile (fun c => c = '0')
  if ds = [] then ['0'] else ds

def intReprCs (m : ℤ) : List Char :=
  (if m < 0 then ['-'] else []) ++ natReprCs m.natAbs

def hexVal (c : Char) : Option ℕ :=
  if 48 ≤ c.toNat ∧ c.toNat ≤ 57 then some (c.toNat - 48)
  else if 97 ≤ c.toNat ∧ c.toNat ≤ 102 then some (c.toNat - 87)
  else if 65 ≤ c.toNat ∧ c.toNat ≤ 70 then some (c.toNat - 55)
  else none

/-- Whether `needle` is an initial segment of `hay`. -/
def leadsWith : List Char → List Char → Bool
  | [], _ => true
  | _ :: _, [] => false
  | a :: as, b :: bs => a == b && leadsWith as bs

/-- Substring test: models the Python expression `needle in hay`. -/
def containsSub (needle : List Char) : List Char → Bool
  | [] => leadsWith needle []
  | c :: rest => leadsWith needle (c :: rest) || containsSub needle rest

/-- The Python expression `needle in hay` on strings. -/
def strIn (needle hay : String) : Bool := containsSub needle.data hay.data

/-! ### JSON values and the model of `json.loads`

`json.loads` is the Python standard library's strict JSON reader.  The
model below implements the JSON grammar it accepts: values are objects,
arrays, strings (with the standard escapes and `\uXXXX`, rejecting raw
control characters), numbers (no leading zeros, optional fraction and
exponent), `true`, `false`, `null`, separated by JSON whitespace, and the
whole input must be consumed.  Numbers are read exactly as decimals.  Not
modelled: the non-standard `Infinity`/`NaN` extensions and surrogate-pair
combining, which the pipeline's claims never exercise. -/

inductive Json where
  | null
  | bool (b : Bool)
  | num (m : ℤ) (k : ℕ)
  | str (s : String)
  | arr (elems : List Json)
  | obj (members : List (String × Json))

/-- Decode the body of a JSON string literal after its opening quote:
returns the decoded characters and the input after the closing quote. -/
def strChars : List Char → Option (List Char × List Char)
  | [] => none
  | '"' :: rest => some ([], rest)
  | '\\' :: 'u' :: h1 :: h2 :: h3 :: h4 :: rest =>
    (match hexVal h1, hexVal h2, hexVal h3, hexVal h4 with
     | some a, some b, some c, some d =>
       (strChars rest).map fun p => (Char.ofNat (((a * 16 + b) * 16 + c) * 16 + d) :: p.1, p.2)
     | _, _, _, _ => none)
  | '\\' :: '"' :: rest => (strChars rest).map fun p => ('"' :: p.1, p.2)
  | '\\' :: '\\' :: rest => (strChars rest).map fun p => ('\\' :: p.1, p.2)
  | '\\' :: '/' :: rest => (strChars rest).map fun p => ('/' :: p.1, p.2)
  | '\\' :: 'b' :: rest => (strChars rest).map fun p => ('\x08' :: p.1, p.2)
  | '\\' :: 'f' :: rest => (strChars rest).map fun p => ('\x0c' :: p.1, p.2)
  | '\\' :: 'n' :: rest => (strChars rest).map fun p => ('\n' :: p.1, p.2)
  | '\\' :: 'r' :: rest => (strChars rest).map fun p => ('\r' :: p.1, p.2)
  | '\\' :: 't' :: rest => (strChars rest).map fun p => ('\t' :: p.1, p.2)
  | '\\' :: _ => none
  | c :: rest =>
    if c.toNat < 32 then none
    else (strChars rest).map fun p => (c :: p.1, p.2)

/-- Read an optional leading minus sign. -/
def splitSign (cs : List Char) : Bool × List Char :=
  match cs with
  | '-' :: t => (true, t)
  | _ => (false, cs)

/-- Assemble a number from sign, integer digits, fraction digits and
exponent: the value is `± (ip.fp) · 10 ^ e`, returned as a raw
(not canonicalized) decimal pair. -/
def composeNum (neg : Bool) (ip fp : List Char) (e : ℤ) : ℤ × ℕ :=
  let M : ℤ := (digitsVal (ip ++ fp) : ℤ)
  let M := if neg then -M else M
  let kz : ℤ := (fp.length : ℤ) - e
  if kz ≤ 0 then (M * 10 ^ (-kz).toNat, 0) else (M, kz.toNat)

def parseExpTail (neg : Bool) (ip fp : List Char) (cs : List Char) :
    Option (ℤ × ℕ × List Char) :=
  let p := match cs with
    | '-' :: t => (true, t)
    | '+' :: t => (false, t)
    | _ => (false, cs)
  let ed := p.2.takeWhile isDigitCh
  let r := p.2.dropWhile isDigitCh
  if ed = [] then none
  else
    let n := composeNum neg ip fp (if p.1 then -(digitsVal ed : ℤ) else (digitsVal ed : ℤ))
    some (n.1, n.2, r)

def parseExpPart (neg : Bool) (ip fp : List Char) (cs : List Char) :
    Option (ℤ × ℕ × List Char) :=
  match cs with
  | 'e' :: t => parseExpTail neg ip fp t
  | 'E' :: t => parseExpTail neg ip fp t
  | _ =>
    let n := composeNum neg ip fp 0
    some (n.1, n.2, cs)

/-- Read one JSON number token from the front of the input, per the JSON
grammar (`-?(0|[1-9][0-9]*)(\.[0-9]+)?([eE][-+]?[0-9]+)?`); returns its
exact decimal value and the remaining input. -/
def parseNumberToken (cs : List Char) : Option (ℤ × ℕ × List Char) :=
  let p := splitSign cs
  let ip := p.2.takeWhile isDigitCh
  let r1 := p.2.dropWhile isDigitCh
  if ip = [] then none
  else if 2 ≤ ip.length ∧ ip.head? = some '0' then none
  else
    match r1 with
    | '.' :: r2 =>
      let fp := r2.takeWhile isDigitCh
      let r3 := r2.dropWhile isDigitCh
      if fp = [] then none else parseExpPart p.1 ip fp r3
    | _ => parseExpPart p.1 ip [] r1

/-- The recursive JSON reader, by recursion on a fuel bound on the nesting
of recursive calls.  The first component reads one value, the second the
members of an object after its `{` (or after a `,`), the third the
elements of an array after its `[` (or after a `,`). -/
def parsers : ℕ →
    (List Char → Option (Json × List Char)) ×
    (List Char → List (String × Json) → Option (Json × List Char)) ×
    (List Char → List Json → Option (Json × List Char))
  | 0 => (fun _ => none, fun _ _ => none, fun _ _ => none)
  | f + 1 =>
    let P := parsers f
    (fun cs =>
      match skipWs cs with
      | '{' :: rest =>
        (match skipWs rest with
         | '}' :: rest2 => some (.obj [], rest2)
         | _ => P.2.1 rest [])
      | '[' :: rest =>
        (match skipWs rest with
         | ']' :: rest2 => some (.arr [], rest2)
         | _ => P.2.2 rest [])
      | '"' :: rest => (strChars rest).map fun p => (.str ⟨p.1⟩, p.2)
      | 't' :: 'r' :: 'u' :: 'e' :: r => some (.bool true, r)
      | 'f' :: 'a' :: 'l' :: 's' :: 'e' :: r => some (.bool false, r)
      | 'n' :: 'u' :: 'l' :: 'l' :: r => some (.null, r)
      | other =>
        (parseNumberToken other).map fun p => (.num p.1 p.2.1, p.2.2),
     fun cs acc =>
      match skipWs cs with
      | '"' :: r1 =>
        (match strChars r1 with
         | none => none
         | some (key, r2) =>
           match skipWs r2 with
           | ':' :: r3 =>
             (match P.1 r3 with
              | none => none
              | some (v, r4) =>
                match skipWs r4 with
                | ',' :: r5 => P.2.1 r5 (acc ++ [(⟨key⟩, v)])
                | '}' :: r5 => some (.obj (acc ++ [(⟨key⟩, v)]), r5)
                | _ => none)
           | _ => none)
      | _ => none,
     fun cs acc =>
      match P.1 cs with
      | none => none
      | some (v, r1) =>
        match skipWs r1 with
        | ',' :: r2 => P.2.2 r2 (acc ++ [v])
        | ']' :: r2 => some (.arr (acc ++ [v]), r2)
        | _ => none)

/-- Model of `json.loads` on a character list: read one value and require
that only whitespace remains.  The fuel `length + 1` never runs out, since
every recursive call consumes at least one character first. -/
def json_loads (cs : List Char) : Option Json :=
  match (parsers (cs.length + 1)).1 cs with
  | some (v, rest) => if skipWs rest = [] then some v else none
  | none => none

/-! ### Models of the Python built-ins used by the pipeline -/

/-- Model of Python `str.lower()`.  Lean's `Char.toLower` lowers the ASCII
letters; Python's is Unicode-aware, but the pipeline only compares the
result against the ASCII label vocabulary. -/
def pyLower (s : String) : String := ⟨s.data.map Char.toLower⟩

/-- Model of Python `str.strip()`: remove ASCII whitespace at both ends. -/
def pyStrip (s : String) : String :=
  ⟨((s.data.dropWhile isPyWs).reverse.dropWhile isPyWs).reverse⟩

/-- Model of Python `str(x)` on a value decoded by `json.loads`.  Strings
are themselves; `None`/`True`/`False` print their Python names; numbers
print sign and digits (with `k` fractional digits when `k ≠ 0`); for lists
and dicts only the surrounding bracket of `repr` is kept, which is all the
pipeline can observe (such a string is never a chart-type label). -/
def pyStr : Json → String
  | .null => "None"
  | .bool true => "True"
  | .bool false => "False"
  | .num m k =>
    if k = 0 then ⟨intReprCs m⟩
    else ⟨(if m < 0 then ['-'] else []) ++ natReprCs (m.natAbs / 10 ^ k) ++
      '.' :: padDigits k (m.natAbs % 10 ^ k)⟩
  | .str s => s
  | .arr _ => "[...]"
  | .obj _ => "\x7b...\x7d"

/-- Read the literal accepted by Python `float(str)`: optional surrounding
whitespace and sign, digits with optional `.` and optional exponent, at
least one digit in total (`"1."`, `".5"` are accepted, unlike JSON).
Not modelled: `inf`/`nan` spellings and `_` digit separators, which the
pipeline's claims never exercise. -/
def parseFloatStr (cs0 : List Char) : Option (ℤ × ℕ) :=
  let cs := ((cs0.dropWhile isPyWs).reverse.dropWhile isPyWs).reverse
  let p := match cs with
    | '-' :: t => (true, t)
    | '+' :: t => (false, t)
    | _ => (false, cs)
  let ip := p.2.takeWhile isDigitCh
  let r1 := p.2.dropWhile isDigitCh
  let q := match r1 with
    | '.' :: r2 => (r2.takeWhile isDigitCh, r2.dropWhile isDigitCh)
    | _ => ([], r1)
  if ip = [] ∧ q.1 = [] then none
  else
    match parseExpPart p.1 ip q.1 q.2 with
    | some (m, k, []) => some (m, k)
    | _ => none

/-- Model of Python `float(x)` on a value decoded by `json.loads`:
numbers are their exact value, booleans coerce to `1.0`/`0.0`, numeric
strings are read by the `float` grammar; `None`, lists and dicts raise
`TypeError`, which the caller's `except` turns into `None`.  The result is
canonicalized, modelling float identity. -/
def pyFloat : Json → Option DecNum
  | .num m k => some (canonAux m k)
  | .bool b => some (if b then dOne else dZero)
  | .str s => (parseFloatStr s.data).map fun p => canonAux p.1 p.2
  | _ => none

/-- Model of Python `dict.get` on the decoded members of a JSON object:
`json.loads` builds a `dict`, where a repeated key keeps its last value. -/
def pyGet (kvs : List (String × Json)) (key : String) : Option Json :=
  (kvs.reverse.find? fun p => p.1 == key).map fun p => p.2

/-! ### The pipeline itself -/

/-- The greedy span of `re.search(r"\x7b.*\x7d", text, re.S)`: from the
first `{` of the text to the last `}`, or `none` when no such span exists. -/
def braceSpan (cs : List Char) : Option (List Char) :=
  let post := cs.dropWhile fun c => c ≠ '{'
  match post with
  | [] => none
  | _ =>
    let r := post.reverse.dropWhile fun c => c ≠ '}'
    match r with
    | [] => none
    | _ => some r.reverse

/-- The allowed chart types (`ALLOWED` in the source). -/
def ALLOWED : List String :=
  ["line", "area", "bar", "bar-horizontal", "scatter", "circle", "pie", "donut"]

/-- The payload built by `parse_json_from_text` on success: `hasGrid` is
present only when the decoded value was a genuine boolean. -/
structure Candidate where
  chartType : String
  confidence : DecNum
  hasGrid : Option Bool
deriving DecidableEq

/-- The lower-cased, stripped `str(obj.get("chartType", ""))`. -/
def extractCt (kvs : List (String × Json)) : String :=
  pyStrip (pyLower (pyStr ((pyGet kvs "chartType").getD (.str ""))))

/-- The value `float(obj.get("confidence", 0.5))`, `none` when `float` raises. -/
def extractConf (kvs : List (String × Json)) : Option DecNum :=
  pyFloat ((pyGet kvs "confidence").getD (.num 5 1))

/-- The value `obj.get("hasGrid", None)`, kept only when it is a genuine boolean. -/
def extractHG (kvs : List (String × Json)) : Option Bool :=
  match pyGet kvs "hasGrid" with
  | some (.bool b) => some b
  | _ => none

/-- The function `parse_json_from_text` from the source: take the greedy brace span,
decode it with `json.loads`, extract and validate the fields.  Any
exception (`json.loads` failure, a non-dict value, an uncoercible
`confidence`) and any out-of-vocabulary label yield `None`. -/
def parse_json_from_text (text : String) : Option Candidate :=
  match braceSpan text.data with
  | none => none
  | some span =>
    match json_loads span with
    | some (.obj kvs) =>
      (match extractConf kvs with
       | none => none
       | some conf =>
         if extractCt kvs ∈ ALLOWED then
           some ⟨extractCt kvs, clampConf conf, extractHG kvs⟩
         else none)
    | _ => none

/-- The result of the keyword tier (a dict with `chartType` and
`confidence` keys in the source). -/
structure MappedResult where
  chartType : String
  confidence : DecNum
deriving DecidableEq

/-- The ordered substring rules of `map_text_to_label`, applied to the
already lower-cased text, first match wins, each with confidence `0.55`. -/
def keywordRules (t : String) : Option MappedResult :=
  if strIn "donut" t || strIn "doughnut" t then some ⟨"donut", dKw⟩
  else if strIn "pie" t then some ⟨"pie", dKw⟩
  else if strIn "bar-horizontal" t || (strIn "horizontal" t && strIn "bar" t) then
    some ⟨"bar-horizontal", dKw⟩
  else if strIn "bar" t then some ⟨"bar", dKw⟩
  else if strIn "scatter" t || strIn "points" t || strIn "dots" t then some ⟨"scatter", dKw⟩
  else if strIn "circle" t then some ⟨"circle", dKw⟩
  else if strIn "area" t then some ⟨"area", dKw⟩
  else if strIn "line" t || strIn "time" t then some ⟨"line", dKw⟩
  else none

/-- The function `map_text_to_label` from the source: lower-case the text
(`t = text.lower()`) and test the ordered substring rules. -/
def map_text_to_label (text : String) : Option MappedResult :=
  keywordRules (pyLower text)

/-- The JSON body of the HTTP response: `chartType` (a label or `null`),
`confidence`, and `hasGrid`, which the handler always makes a present
boolean. -/
structure ClassificationResult where
  chartType : Option String
  confidence : DecNum
  hasGrid : Bool
deriving DecidableEq

/-- The abstention result `{chartType: null, confidence: 0.0, hasGrid: false}`. -/
def abstainResult : ClassificationResult := ⟨none, dZero, false⟩

/-- The text-to-result portion of the `classify` handler: tier 1 takes the
strict-JSON candidate (defaulting `hasGrid` to `False` when absent), tier 2
takes the keyword mapping re-checked against `ALLOWED` with
`hasGrid = False`, and otherwise the handler abstains. -/
def classify (text : String) : ClassificationResult :=
  match parse_json_from_text text with
  | some p => ⟨some p.chartType, p.confidence, p.hasGrid.getD false⟩
  | none =>
    match map_text_to_label text with
    | some m =>
      if m.chartType ∈ ALLOWED then ⟨some m.chartType, m.confidence, false⟩
      else abstainResult
    | none => abstainResult

/-! ### Model of the JSON serialization of a response

The handler returns `JSONResponse(result)`, which renders the dict compactly
in insertion order (`chartType`, `confidence`, `hasGrid`).  A float renders
as its shortest decimal form, which for a canonical `DecNum` is its digits
(integral floats render with a trailing `.0`). -/

/-- Render a canonical confidence float: `m.0` when `k = 0`, otherwise
sign, integer part, `.`, and exactly `k` fraction digits. -/
def serializeConf (c : DecNum) : List Char :=
  if c.k = 0 then intReprCs c.m ++ ['.', '0']
  else (if c.m < 0 then ['-'] else []) ++ natReprCs (c.m.natAbs / 10 ^ c.k) ++
    '.' :: padDigits c.k (c.m.natAbs % 10 ^ c.k)

/-- The serialized `chartType` value: a quoted label or `null`. -/
def serializeCt : Option String → List Char
  | none => ['n', 'u', 'l', 'l']
  | some ct => '"' :: ct.data ++ ['"']

def serializeHG : Bool → List Char
  | true => ['t', 'r', 'u', 'e']
  | false => ['f', 'a', 'l', 's', 'e']

/-- The JSON text of a `ClassificationResult` as the HTTP layer emits it. -/
def serializeResult (r : ClassificationResult) : String :=
  ⟨'{' :: ('"' :: "chartType".data ++ '"' :: ':' :: serializeCt r.chartType) ++
    (',' :: '"' :: "confidence".data ++ '"' :: ':' :: serializeConf r.confidence) ++
    (',' :: '"' :: "hasGrid".data ++ '"' :: ':' :: serializeHG r.hasGrid) ++ ['}']⟩

end VisionServer

namespace VisionServer

/-! ### Basic facts about the pipeline's pieces -/

theorem canonAux_isCanon (m : ℤ) (k : ℕ) : IsCanon (canonAux m k) := by
  induction k generalizing m with
  | zero => exact Or.inl rfl
  | succ k ih =>
    unfold canonAux
    split
    · exact ih _
    · exact Or.inr (by assumption)

theorem canonAux_fixed (m : ℤ) (k : ℕ) (h : k = 0 ∨ m % 10 ≠ 0) : canonAux m k = ⟨m, k⟩ := by
  cases k with
  | zero => rfl
  | succ k =>
    unfold canonAux
    rcases h with h | h
    · exact absurd h (by omega)
    · rw [if_neg h]

theorem pyFloat_isCanon (j : Json) (c : DecNum) (h : pyFloat j = some c) : IsCanon c := by
  cases j with
  | num m k =>
    simp only [pyFloat, Option.some.injEq] at h
    exact h ▸ canonAux_isCanon m k
  | bool b =>
    simp only [pyFloat, Option.some.injEq] at h
    cases b <;> exact h ▸ Or.inl rfl
  | str s =>
    simp only [pyFloat, Option.map_eq_some'] at h
    obtain ⟨p, -, rfl⟩ := h
    exact canonAux_isCanon p.1 p.2
  | null => exact absurd h (by simp [pyFloat])
  | arr es => exact absurd h (by simp [pyFloat])
  | obj kvs => exact absurd h (by simp [pyFloat])

/-- The clamp written as explicit comparisons on the decimal pair. -/
theorem clampConf_eq (c : DecNum) :
    clampConf c = if c.m < 10 ^ c.k then (if 0 < c.m then c else dZero) else dOne := by
  unfold clampConf pyMin pyMax dLt dZero dOne
  simp only [pow_zero, mul_one, one_mul, zero_mul, decide_eq_true_eq]
  split
  · split
    · simp_all
    · simp_all
  · simp_all

theorem clampConf_range (c : DecNum) (hc : IsCanon c) :
    IsCanon (clampConf c) ∧ 0 ≤ (clampConf c).m ∧ (clampConf c).m ≤ 10 ^ (clampConf c).k := by
  rw [clampConf_eq]
  by_cases h1 : c.m < 10 ^ c.k
  · rw [if_pos h1]
    by_cases h2 : 0 < c.m
    · rw [if_pos h2]
      exact ⟨hc, by omega, by omega⟩
    · rw [if_neg h2]
      exact ⟨Or.inl rfl, by decide, by decide⟩
  · rw [if_neg h1]
    exact ⟨Or.inl rfl, by decide, by decide⟩

theorem clampConf_id (c : DecNum) (hc : IsCanon c) (h0 : 0 ≤ c.m) (h1 : c.m ≤ 10 ^ c.k) :
    clampConf c = c := by
  rw [clampConf_eq]
  rcases lt_or_eq_of_le h1 with hlt | heq
  · rw [if_pos hlt]
    rcases lt_or_eq_of_le h0 with hpos | hz
    · rw [if_pos hpos]
    · rcases hc with hk | hm
      · rw [if_neg (by omega)]
        cases c
        simp_all [dZero]
      · exact (hm (by omega)).elim
  · rw [if_neg (by omega)]
    rcases Nat.eq_zero_or_pos c.k with hk | hk
    · cases c
      simp_all [dOne]
    · exfalso
      apply hc.resolve_left (by omega)
      have h10 : (10 : ℤ) ∣ 10 ^ c.k := dvd_pow_self 10 (by omega)
      omega

theorem toRat_range (c : DecNum) (h1 : 0 ≤ c.m) (h2 : c.m ≤ 10 ^ c.k) :
    0 ≤ c.toRat ∧ c.toRat ≤ 1 := by
  unfold DecNum.toRat
  constructor
  · apply div_nonneg _ (by positivity)
    exact_mod_cast h1
  · rw [div_le_one (by positivity)]
    exact_mod_cast h2

/-- What the keyword tier can return: a label from the vocabulary, always
with confidence `0.55`. -/
theorem map_text_to_label_spec (t : String) (m : MappedResult)
    (h : map_text_to_label t = some m) : m.chartType ∈ ALLOWED ∧ m.confidence = dKw := by
  unfold map_text_to_label keywordRules at h
  repeat' split at h
  all_goals first
    | exact Option.noConfusion h
    | (injection h with h
       subst h
       exact ⟨by decide, rfl⟩)

/-- What the strict-JSON tier can return: a label from the vocabulary and a
confidence that is the clamp of some canonical float. -/
theorem parse_json_from_text_spec (t : String) (p : Candidate)
    (h : parse_json_from_text t = some p) :
    p.chartType ∈ ALLOWED ∧ ∃ c, IsCanon c ∧ p.confidence = clampConf c := by
  unfold parse_json_from_text at h
  split at h
  · exact Option.noConfusion h
  · split at h
    · split at h
      · exact Option.noConfusion h
      · split at h
        · injection h with h
          subst h
          exact ⟨by assumption, _, pyFloat_isCanon _ _ (by assumption), rfl⟩
        · exact Option.noConfusion h
    · exact Option.noConfusion h

/-- Tier 1 of the handler: a strict-JSON candidate is returned as the
response, with `hasGrid` defaulted to `False` when the candidate lacks it. -/
theorem classify_eq_strict (t : String) (p : Candidate)
    (h : parse_json_from_text t = some p) :
    classify t = ⟨some p.chartType, p.confidence, p.hasGrid.getD false⟩ := by
  unfold classify
  rw [h]

/-- Tier 2 of the handler: with no strict-JSON candidate, a keyword mapping
is returned with `hasGrid = False`; its re-check against `ALLOWED` always
passes. -/
theorem classify_eq_kw (t : String) (m : MappedResult)
    (h : parse_json_from_text t = none) (h2 : map_text_to_label t = some m) :
    classify t = ⟨some m.chartType, m.confidence, false⟩ := by
  unfold classify
  simp only [h, h2]
  rw [if_pos (map_text_to_label_spec t m h2).1]

/-- Tier 3 of the handler: with neither tier succeeding, it abstains. -/
theorem classify_eq_abstain (t : String)
    (h : parse_json_from_text t = none) (h2 : map_text_to_label t = none) :
    classify t = abstainResult := by
  unfold classify
  rw [h, h2]

theorem confidence_wf (t : String) :
    IsCanon (classify t).confidence ∧ 0 ≤ (classify t).confidence.m ∧
      (classify t).confidence.m ≤ 10 ^ (classify t).confidence.k := by
  rcases hp : parse_json_from_text t with - | p
  · rcases hm : map_text_to_label t with - | m
    · rw [classify_eq_abstain t hp hm]
      exact ⟨Or.inl rfl, by decide, by decide⟩
    · rw [classify_eq_kw t m hp hm]
      have h55 := (map_text_to_label_spec t m hm).2
      refine ⟨?_, ?_, ?_⟩ <;> simp only [h55] <;> decide
  · rw [classify_eq_strict t p hp]
    obtain ⟨-, c, hc, hconf⟩ := parse_json_from_text_spec t p hp
    simpa only [hconf] using clampConf_range c hc

theorem chartType_wf (t : String) (ct : String) (h : (classify t).chartType = some ct) :
    ct ∈ ALLOWED := by
  rcases hp : parse_json_from_text t with - | p
  · rcases hm : map_text_to_label t with - | m
    · rw [classify_eq_abstain t hp hm] at h
      exact Option.noConfusion h
    · rw [classify_eq_kw t m hp hm] at h
      injection h with h
      exact h ▸ (map_text_to_label_spec t m hm).1
  · rw [classify_eq_strict t p hp] at h
    injection h with h
    exact h ▸ (parse_json_from_text_spec t p hp).1

/-! ### The claims -/

/-- C1: for every input string — empty, adversarial JSON, or garbage — the
Normalizer pipeline (strict-JSON tier, then keyword tier, then abstention)
is a total function into `ClassificationResult`: the confidence lies in
`[0, 1]`, the `hasGrid` field is a present boolean, and the chart type,
when present, belongs to the allowed vocabulary. -/
theorem C1_normalizer_total_wellformed (t : String) :
    (0 ≤ (classify t).confidence.toRat ∧ (classify t).confidence.toRat ≤ 1) ∧
    ((classify t).hasGrid = true ∨ (classify t).hasGrid = false) ∧
    (∀ ct, (classify t).chartType = some ct → ct ∈ ALLOWED) := by
  obtain ⟨-, h0, h1⟩ := confidence_wf t
  exact ⟨toRat_range _ h0 h1, Bool.eq_false_or_eq_true _, chartType_wf t⟩

theorem C1_witness :
    (0 ≤ (classify "pie chart").confidence.toRat ∧
      (classify "pie chart").confidence.toRat ≤ 1) ∧ "pie" ∈ ALLOWED :=
  ⟨(C1_normalizer_total_wellformed "pie chart").1,
   (C1_normalizer_total_wellformed "pie chart").2.2 "pie" (by decide)⟩

/-- C2: the Normalizer's result is determined in strict priority order:
the strict-JSON candidate whenever `parse_json_from_text` yields one,
otherwise the keyword-fallback result of `map_text_to_label` when that is
non-null, otherwise the abstention result; each tier, once reached, fully
determines the answer. -/
theorem C2_priority_order (t : String) :
    (∀ p, parse_json_from_text t = some p →
      classify t = ⟨some p.chartType, p.confidence, p.hasGrid.getD false⟩) ∧
    (parse_json_from_text t = none → ∀ m, map_text_to_label t = some m →
      classify t = ⟨some m.chartType, m.confidence, false⟩) ∧
    (parse_json_from_text t = none → map_text_to_label t = none →
      classify t = abstainResult) :=
  ⟨fun p hp => classify_eq_strict t p hp,
   fun h m hm => classify_eq_kw t m h hm,
   fun h hm => classify_eq_abstain t h hm⟩

theorem C2_witness :
    classify "\x7b\"chartType\":\"PIE\",\"confidence\":1.4,\"hasGrid\":true\x7d" =
      ⟨some "pie", dOne, true⟩ ∧
    classify "a horizontal bar" = ⟨some "bar-horizontal", dKw, false⟩ ∧
    classify "nothing useful" = abstainResult :=
  ⟨(C2_priority_order _).1 ⟨"pie", dOne, some true⟩ (by decide),
   (C2_priority_order _).2.1 (by decide) ⟨"bar-horizontal", dKw⟩ (by decide),
   (C2_priority_order _).2.2 (by decide) (by decide)⟩

/-- C3: on `'\x7b"chartType":"PIE","confidence":1.4,"hasGrid":true\x7d'` the
Normalizer returns exactly `pie` (matched case-insensitively, lower-cased
on output) with the out-of-range confidence `1.4` clamped to `1.0` and
`hasGrid = true`. -/
theorem C3_pie_uppercase_clamped :
    classify "\x7b\"chartType\":\"PIE\",\"confidence\":1.4,\"hasGrid\":true\x7d" =
      ⟨some "pie", dOne, true⟩ ∧ DecNum.toRat dOne = 1 :=
  ⟨by decide, by norm_num [DecNum.toRat, dOne]⟩

/-- C9: when neither tier yields a result the Normalizer returns exactly
the abstention result `\x7bchartType: null, confidence: 0.0, hasGrid: false\x7d`,
as on the input `"I cannot determine the chart type"`. -/
theorem C9_abstention (t : String) :
    (parse_json_from_text t = none → map_text_to_label t = none →
      classify t = abstainResult) ∧
    classify "I cannot determine the chart type" = abstainResult ∧
    abstainResult = ⟨none, dZero, false⟩ ∧ DecNum.toRat dZero = 0 :=
  ⟨fun h h2 => classify_eq_abstain t h h2, by decide, rfl,
   by norm_num [DecNum.toRat, dZero]⟩

theorem C9_witness :
    classify "I cannot determine the chart type" = abstainResult :=
  (C9_abstention "I cannot determine the chart type").1 (by decide) (by decide)

/-- C6: the keyword fallback lower-cases the full input and applies the
fixed ordered substring rules with first-match-wins priority (donut or
doughnut; then pie; then bar-horizontal, also as horizontal plus bar; then
bar; then scatter, points or dots; then circle; then area; then line or
time), every match yielding confidence exactly `0.55` and the tier never
setting `hasGrid`; in particular the gridlines example maps to
bar-horizontal even though "line" occurs inside "gridlines". -/
theorem C6_keyword_rules (t l : String) :
    map_text_to_label t = keywordRules (pyLower t) ∧
    (∀ m, map_text_to_label t = some m → m.confidence = dKw) ∧
    (parse_json_from_text t = none → ∀ m, map_text_to_label t = some m →
      (classify t).hasGrid = false) ∧
    ((strIn "donut" l || strIn "doughnut" l) = true →
      keywordRules l = some ⟨"donut", dKw⟩) ∧
    ((strIn "donut" l || strIn "doughnut" l) = false → strIn "pie" l = true →
      keywordRules l = some ⟨"pie", dKw⟩) ∧
    ((strIn "donut" l || strIn "doughnut" l) = false → strIn "pie" l = false →
      (strIn "bar-horizontal" l || (strIn "horizontal" l && strIn "bar" l)) = true →
      keywordRules l = some ⟨"bar-horizontal", dKw⟩) ∧
    ((strIn "donut" l || strIn "doughnut" l) = false → strIn "pie" l = false →
      (strIn "bar-horizontal" l || (strIn "horizontal" l && strIn "bar" l)) = false →
      strIn "bar" l = true → keywordRules l = some ⟨"bar", dKw⟩) ∧
    ((strIn "donut" l || strIn "doughnut" l) = false → strIn "pie" l = false →
      (strIn "bar-horizontal" l || (strIn "horizontal" l && strIn "bar" l)) = false →
      strIn "bar" l = false →
      (strIn "scatter" l || strIn "points" l || strIn "dots" l) = true →
      keywordRules l = some ⟨"scatter", dKw⟩) ∧
    ((strIn "donut" l || strIn "doughnut" l) = false → strIn "pie" l = false →
      (strIn "bar-horizontal" l || (strIn "horizontal" l && strIn "bar" l)) = false →
      strIn "bar" l = false →
      (strIn "scatter" l || strIn "points" l || strIn "dots" l) = false →
      strIn "circle" l = true → keywordRules l = some ⟨"circle", dKw⟩) ∧
    ((strIn "donut" l || strIn "doughnut" l) = false → strIn "pie" l = false →
      (strIn "bar-horizontal" l || (strIn "horizontal" l && strIn "bar" l)) = false →
      strIn "bar" l = false →
      (strIn "scatter" l || strIn "points" l || strIn "dots" l) = false →
      strIn "circle" l = false → strIn "area" l = true →
      keywordRules l = some ⟨"area", dKw⟩) ∧
    ((strIn "donut" l || strIn "doughnut" l) = false → strIn "pie" l = false →
      (strIn "bar-horizontal" l || (strIn "horizontal" l && strIn "bar" l)) = false →
      strIn "bar" l = false →
      (strIn "scatter" l || strIn "points" l || strIn "dots" l) = false →
      strIn "circle" l = false → strIn "area" l = false →
      (strIn "line" l || strIn "time" l) = true →
      keywordRules l = some ⟨"line", dKw⟩) ∧
    ((strIn "donut" l || strIn "doughnut" l) = false → strIn "pie" l = false →
      (strIn "bar-horizontal" l || (strIn "horizontal" l && strIn "bar" l)) = false →
      strIn "bar" l = false →
      (strIn "scatter" l || strIn "points" l || strIn "dots" l) = false →
      strIn "circle" l = false → strIn "area" l = false →
      (strIn "line" l || strIn "time" l) = false → keywordRules l = none) ∧
    classify "This looks like a horizontal bar chart with gridlines" =
      ⟨some "bar-horizontal", dKw, false⟩ := by
  refine ⟨rfl, fun m hm => (map_text_to_label_spec t m hm).2,
    fun hp m hm => by rw [classify_eq_kw t m hp hm], ?_, ?_, ?_, ?_, ?_, ?_, ?_, ?_, ?_, by decide⟩
  all_goals intros
  all_goals simp_all [keywordRules]

theorem C6_witness :
    keywordRules "a pie" = some ⟨"pie", dKw⟩ ∧
    keywordRules "bars over time" = some ⟨"bar", dKw⟩ ∧
    (classify "This looks like a horizontal bar chart with gridlines").hasGrid = false :=
  ⟨(C6_keyword_rules "" "a pie").2.2.2.2.1 (by decide) (by decide),
   (C6_keyword_rules "" "bars over time").2.2.2.2.2.2.1 (by decide) (by decide) (by decide)
     (by decide),
   (C6_keyword_rules "This looks like a horizontal bar chart with gridlines" "").2.2.1
     (by decide) ⟨"bar-horizontal", dKw⟩ (by decide)⟩

/-- C7: a parseable brace-delimited JSON object whose `chartType` is
outside the allowed set is treated as a strict-JSON parse failure: the
candidate is null, the pipeline falls through to the keyword fallback on
the same text, and when that text has no keyword either, it abstains — as
on `'\x7b"chartType":"triangle","confidence":0.9\x7d'`. -/
theorem C7_invalid_label_falls_through (t : String) (sp : List Char)
    (kvs : List (String × Json)) (h1 : braceSpan t.data = some sp)
    (h2 : json_loads sp = some (.obj kvs)) (h3 : extractCt kvs ∉ ALLOWED) :
    parse_json_from_text t = none ∧
    (∀ m, map_text_to_label t = some m →
      classify t = ⟨some m.chartType, m.confidence, false⟩) ∧
    (map_text_to_label t = none → classify t = abstainResult) ∧
    classify "\x7b\"chartType\":\"triangle\",\"confidence\":0.9\x7d" = abstainResult := by
  have hnone : parse_json_from_text t = none := by
    unfold parse_json_from_text
    simp only [h1, h2]
    rcases hconf : extractConf kvs with - | conf
    · rfl
    · simp only [hconf]
      rw [if_neg h3]
  exact ⟨hnone, fun m hm => classify_eq_kw t m hnone hm,
    fun hm => classify_eq_abstain t hnone hm, by decide⟩

theorem C7_witness :
    parse_json_from_text "\x7b\"chartType\":\"triangle\",\"confidence\":0.9\x7d" = none ∧
    classify "\x7b\"chartType\":\"triangle\",\"confidence\":0.9\x7d" = abstainResult :=
  ⟨(C7_invalid_label_falls_through
      "\x7b\"chartType\":\"triangle\",\"confidence\":0.9\x7d"
      ("\x7b\"chartType\":\"triangle\",\"confidence\":0.9\x7d".data)
      [("chartType", .str "triangle"), ("confidence", .num 9 1)]
      (by decide) rfl (by decide)).1,
   (C7_invalid_label_falls_through
      "\x7b\"chartType\":\"triangle\",\"confidence\":0.9\x7d"
      ("\x7b\"chartType\":\"triangle\",\"confidence\":0.9\x7d".data)
      [("chartType", .str "triangle"), ("confidence", .num 9 1)]
      (by decide) rfl (by decide)).2.2.1 (by decide)⟩

/-- C8: in the strict-JSON tier, for a parsed object with an allowed
label: the confidence defaults to `0.5` when the field is absent, a
`hasGrid` value is kept only when it is a genuine boolean, and the final
response always carries a `hasGrid` boolean, defaulting to `false` when
the candidate omitted it. -/
theorem C8_strict_field_handling (t : String) (sp : List Char)
    (kvs : List (String × Json)) (h1 : braceSpan t.data = some sp)
    (h2 : json_loads sp = some (.obj kvs)) (h3 : extractCt kvs ∈ ALLOWED) :
    (pyGet kvs "confidence" = none →
      parse_json_from_text t = some ⟨extractCt kvs, dHalf, extractHG kvs⟩) ∧
    (∀ v, pyGet kvs "hasGrid" = some v → (∀ b, v ≠ .bool b) → extractHG kvs = none) ∧
    (∀ b, pyGet kvs "hasGrid" = some (.bool b) → extractHG kvs = some b) ∧
    (∀ p, parse_json_from_text t = some p → p.hasGrid = none →
      (classify t).hasGrid = false) ∧
    ((classify t).hasGrid = true ∨ (classify t).hasGrid = false) := by
  refine ⟨?_, ?_, ?_, ?_, Bool.eq_false_or_eq_true _⟩
  · intro hget
    have hconf : extractConf kvs = some dHalf := by
      unfold extractConf
      rw [hget]
      rfl
    unfold parse_json_from_text
    simp only [h1, h2, hconf]
    rw [if_pos h3]
    have : clampConf dHalf = dHalf := by decide
    rw [this]
  · intro v hget hne
    unfold extractHG
    rw [hget]
    cases v with
    | bool b => exact absurd rfl (hne b)
    | null => rfl
    | num m k => rfl
    | str s => rfl
    | arr es => rfl
    | obj ms => rfl
  · intro b hget
    unfold extractHG
    rw [hget]
  · intro p hp hnone
    rw [classify_eq_strict t p hp, hnone]
    rfl

theorem C8_witness :
    parse_json_from_text "\x7b\"chartType\":\"pie\",\"hasGrid\":1\x7d" =
      some ⟨"pie", dHalf, none⟩ ∧
    (classify "\x7b\"chartType\":\"pie\",\"hasGrid\":1\x7d").hasGrid = false := by
  have h := C8_strict_field_handling "\x7b\"chartType\":\"pie\",\"hasGrid\":1\x7d"
    ("\x7b\"chartType\":\"pie\",\"hasGrid\":1\x7d".data)
    [("chartType", .str "pie"), ("hasGrid", .num 1 0)] (by decide) rfl (by decide)
  have hp : parse_json_from_text "\x7b\"chartType\":\"pie\",\"hasGrid\":1\x7d" =
      some ⟨"pie", dHalf, none⟩ := by
    rw [h.1 rfl]
    decide
  exact ⟨hp, h.2.2.2.1 ⟨"pie", dHalf, none⟩ hp rfl⟩

/-- C10: a valid-label object whose `confidence` value cannot be coerced
by `float()` (a list, an object, `null`, or a non-numeric string) makes
the whole strict-JSON candidate be discarded rather than defaulted, and
the pipeline falls through to the keyword tier; relatedly
`map_text_to_label` only ever returns labels from the allowed set, so the
handler's re-check never rejects a keyword result. -/
theorem C10_uncoercible_confidence (t : String) (sp : List Char)
    (kvs : List (String × Json)) (v : Json) (h1 : braceSpan t.data = some sp)
    (h2 : json_loads sp = some (.obj kvs)) (h4 : pyGet kvs "confidence" = some v)
    (h5 : pyFloat v = none) :
    parse_json_from_text t = none ∧
    classify t = (match map_text_to_label t with
      | some m => ⟨some m.chartType, m.confidence, false⟩
      | none => abstainResult) ∧
    (∀ u m, map_text_to_label u = some m → m.chartType ∈ ALLOWED) := by
  have hconf : extractConf kvs = none := by
    unfold extractConf
    rw [h4]
    simpa using h5
  have hnone : parse_json_from_text t = none := by
    unfold parse_json_from_text
    simp only [h1, h2, hconf]
  refine ⟨hnone, ?_, fun u m hm => (map_text_to_label_spec u m hm).1⟩
  rcases hm : map_text_to_label t with - | m
  · exact classify_eq_abstain t hnone hm
  · exact classify_eq_kw t m hnone hm

theorem C10_witness :
    parse_json_from_text "\x7b\"chartType\":\"pie\",\"confidence\":\"high\"\x7d" = none ∧
    classify "\x7b\"chartType\":\"pie\",\"confidence\":\"high\"\x7d" =
      ⟨some "pie", dKw, false⟩ ∧ "pie" ∈ ALLOWED := by
  have h := C10_uncoercible_confidence
    "\x7b\"chartType\":\"pie\",\"confidence\":\"high\"\x7d"
    ("\x7b\"chartType\":\"pie\",\"confidence\":\"high\"\x7d".data)
    [("chartType", .str "pie"), ("confidence", .str "high")] (.str "high")
    (by decide) rfl rfl rfl
  refine ⟨h.1, ?_, h.2.2 "a pie" ⟨"pie", dKw⟩ (by decide)⟩
  rw [h.2.1]
  decide

theorem dropWhile_append_of_all (p : Char → Bool) (as bs : List Char)
    (h : ∀ x ∈ as, p x = true) : (as ++ bs).dropWhile p = bs.dropWhile p := by
  induction as with
  | nil => rfl
  | cons a as ih =>
    simp only [List.cons_append, List.dropWhile_cons, h a (by simp)]
    exact ih fun x hx => h x (by simp [hx])

/-- The greedy regex span: from the first `{` of the text to the last `}`. -/
theorem braceSpan_append (pre mid post : List Char) (hpre : '{' ∉ pre)
    (hpost : '}' ∉ post) :
    braceSpan (pre ++ '{' :: (mid ++ '}' :: post)) = some ('{' :: (mid ++ ['\x7d'])) := by
  have hall1 : ∀ x ∈ pre, (decide ¬x = '{') = true := fun x hx => by
    simp only [decide_eq_true_eq]
    exact fun e => hpre (e ▸ hx)
  have hall2 : ∀ x ∈ post.reverse, (decide ¬x = '}') = true := fun x hx => by
    simp only [decide_eq_true_eq]
    exact fun e => hpost (e ▸ List.mem_reverse.mp hx)
  have h1 : List.dropWhile (fun c => decide ¬c = '{') (pre ++ '{' :: (mid ++ '}' :: post)) =
      '{' :: (mid ++ '}' :: post) := by
    rw [dropWhile_append_of_all _ pre _ hall1]
    simp [List.dropWhile_cons]
  have hrev : ('{' :: (mid ++ '}' :: post)).reverse =
      post.reverse ++ '}' :: (mid.reverse ++ ['{']) := by
    simp
  have h2 : List.dropWhile (fun c => decide ¬c = '}') ('{' :: (mid ++ '}' :: post)).reverse =
      '}' :: (mid.reverse ++ ['{']) := by
    rw [hrev, dropWhile_append_of_all _ post.reverse _ hall2]
    simp [List.dropWhile_cons]
  simp only [braceSpan, h1, h2]
  simp

/-- C5: the strict-JSON tier hands `json.loads` exactly the greedy span
from the first `{` to the last `}` of the text; on a text holding two
separate well-formed JSON objects the span is the concatenation spanning
both, its JSON parse fails, and the pipeline proceeds to the keyword
tier. -/
theorem C5_greedy_span (t : String) (sp : List Char) :
    (∀ pre mid post : List Char, '{' ∉ pre → '}' ∉ post →
      braceSpan (pre ++ '{' :: (mid ++ '}' :: post)) = some ('{' :: (mid ++ ['}']))) ∧
    (braceSpan t.data = some sp → json_loads sp = none →
      parse_json_from_text t = none) ∧
    braceSpan ("\x7b\"chartType\":\"pie\",\"confidence\":0.9\x7d \x7b\"chartType\":\"bar\",\"confidence\":0.9\x7d").data =
      some ("\x7b\"chartType\":\"pie\",\"confidence\":0.9\x7d \x7b\"chartType\":\"bar\",\"confidence\":0.9\x7d").data ∧
    json_loads ("\x7b\"chartType\":\"pie\",\"confidence\":0.9\x7d \x7b\"chartType\":\"bar\",\"confidence\":0.9\x7d").data = none ∧
    parse_json_from_text "\x7b\"chartType\":\"pie\",\"confidence\":0.9\x7d \x7b\"chartType\":\"bar\",\"confidence\":0.9\x7d" = none ∧
    classify "\x7b\"chartType\":\"pie\",\"confidence\":0.9\x7d \x7b\"chartType\":\"bar\",\"confidence\":0.9\x7d" =
      ⟨some "pie", dKw, false⟩ := by
  refine ⟨braceSpan_append, ?_, by decide, by rfl, by rfl, by decide⟩
  intro h h2
  unfold parse_json_from_text
  simp only [h, h2]

theorem C5_witness :
    braceSpan ("ab\x7bx\x7dcd").data = some ('{' :: ("x".data ++ ['\x7d'])) ∧
    parse_json_from_text "\x7bnot json\x7d \x7b\x7d" = none :=
  ⟨(C5_greedy_span "" []).1 "ab".data "x".data "cd".data (by decide) (by decide),
   (C5_greedy_span "\x7bnot json\x7d \x7b\x7d" ("\x7bnot json\x7d \x7b\x7d".data)).2.1
     (by decide) (by rfl)⟩

/-! ### Round-trip machinery: reading back a serialized result -/

theorem toNat_ofNat_lt (n : ℕ) (h : n < 55296) : (Char.ofNat n).toNat = n := by
  unfold Char.ofNat
  rw [dif_pos (by constructor; omega)]
  rfl

theorem padDigits_length (k n : ℕ) : (padDigits k n).length = k := by
  induction k generalizing n with
  | zero => rfl
  | succ k ih => simp [padDigits, ih]

theorem padDigits_digits (k n : ℕ) : ∀ c ∈ padDigits k n, isDigitCh c = true := by
  induction k generalizing n with
  | zero => simp [padDigits]
  | succ k ih =>
    intro c hc
    simp only [padDigits, List.mem_append, List.mem_singleton] at hc
    rcases hc with hc | rfl
    · exact ih _ c hc
    · have hm : n % 10 < 10 := Nat.mod_lt n (by omega)
      simp only [isDigitCh, toNat_ofNat_lt (48 + n % 10) (by omega), Bool.and_eq_true,
        decide_eq_true_eq]
      omega

theorem digitsVal_append_digit (ds : List Char) (c : Char) :
    digitsVal (ds ++ [c]) = 10 * digitsVal ds + (c.toNat - 48) := by
  simp [digitsVal, List.foldl_append]

theorem ten_mod_split (q r m : ℕ) (hr : r < 10) (hm : 0 < m) :
    (10 * q + r) % (10 * m) = 10 * (q % m) + r := by
  have h1 : 10 * q % (10 * m) = 10 * (q % m) := Nat.mul_mod_mul_left 10 q m
  have h2 : q % m < m := Nat.mod_lt q hm
  calc (10 * q + r) % (10 * m)
      = (10 * q % (10 * m) + r % (10 * m)) % (10 * m) := by rw [Nat.add_mod]
    _ = (10 * (q % m) + r % (10 * m)) % (10 * m) := by rw [h1]
    _ = (10 * (q % m) + r) % (10 * m) := by
          have hr2 : r % (10 * m) = r := Nat.mod_eq_of_lt (by omega)
          rw [hr2]
    _ = 10 * (q % m) + r := Nat.mod_eq_of_lt (by omega)

theorem digitsVal_padDigits (k n : ℕ) : digitsVal (padDigits k n) = n % 10 ^ k := by
  induction k generalizing n with
  | zero => simp [padDigits, digitsVal, Nat.mod_one]
  | succ k ih =>
    rw [padDigits, digitsVal_append_digit, ih]
    have hv : (Char.ofNat (48 + n % 10)).toNat = 48 + n % 10 :=
      toNat_ofNat_lt _ (by have := Nat.mod_lt n (show 0 < 10 by omega); omega)
    rw [hv]
    have h1 : 48 + n % 10 - 48 = n % 10 := by omega
    rw [h1]
    have h2 : (10 : ℕ) ^ (k + 1) = 10 * 10 ^ k := by ring
    rw [h2]
    conv_rhs => rw [← Nat.div_add_mod n 10]
    rw [ten_mod_split _ _ _ (Nat.mod_lt n (by omega)) (by positivity)]

theorem takeWhile_append_exact (p : Char → Bool) (xs : List Char) (c : Char)
    (rest : List Char) (h : ∀ x ∈ xs, p x = true) (hc : p c = false) :
    (xs ++ c :: rest).takeWhile p = xs ∧ (xs ++ c :: rest).dropWhile p = c :: rest := by
  induction xs with
  | nil => simp [List.takeWhile_cons, List.dropWhile_cons, hc]
  | cons x xs ih =>
    obtain ⟨ih1, ih2⟩ := ih fun y hy => h y (by simp [hy])
    simp [List.takeWhile_cons, List.dropWhile_cons, h x (by simp), ih1, ih2]

theorem digitsVal_cons_zero (ds : List Char) : digitsVal ('0' :: ds) = digitsVal ds := rfl

/-- Reading back the fraction digits written by the serializer. -/
theorem parseNumberToken_pad (k n : ℕ) (hk : 1 ≤ k) (hn : n < 10 ^ k) (tail : List Char) :
    parseNumberToken ('0' :: '.' :: (padDigits k n ++ ',' :: tail)) =
      some ((n : ℤ), k, ',' :: tail) := by
  obtain ⟨htw, hdw⟩ := takeWhile_append_exact isDigitCh (padDigits k n) ',' tail
    (padDigits_digits k n) (by decide)
  have hne : padDigits k n ≠ [] := by
    intro he
    have := padDigits_length k n
    rw [he] at this
    simp at this
    omega
  have hsign : splitSign ('0' :: '.' :: (padDigits k n ++ ',' :: tail)) =
      (false, '0' :: '.' :: (padDigits k n ++ ',' :: tail)) := rfl
  have hpe : parseExpPart false ['0'] (padDigits k n) (',' :: tail) =
      some ((composeNum false ['0'] (padDigits k n) 0).1,
        (composeNum false ['0'] (padDigits k n) 0).2, ',' :: tail) := rfl
  simp only [parseNumberToken, hsign, List.takeWhile_cons, List.dropWhile_cons,
    show isDigitCh '0' = true from rfl, show isDigitCh '.' = false from rfl, if_true,
    Bool.false_eq_true, if_false]
  simp only [htw, hdw]
  rw [if_neg (by simp), if_neg (by simp), if_neg hne, hpe]
  simp only [composeNum, List.singleton_append, digitsVal_cons_zero, digitsVal_padDigits,
    Nat.mod_eq_of_lt hn, padDigits_length]
  rw [if_neg (by omega)]
  simp

theorem parseNumberToken_zero_lit (tail : List Char) :
    parseNumberToken (['0', '.', '0'] ++ ',' :: tail) = some (0, 1, ',' :: tail) := rfl

theorem parseNumberToken_one_lit (tail : List Char) :
    parseNumberToken (['1', '.', '0'] ++ ',' :: tail) = some (10, 1, ',' :: tail) := rfl

set_option maxHeartbeats 1000000 in
/-- Reading a JSON string literal made of ordinary characters. -/
theorem strChars_append (s rest : List Char)
    (h : ∀ c ∈ s, ¬c = '"' ∧ ¬c = '\\' ∧ 32 ≤ c.toNat) :
    strChars (s ++ '"' :: rest) = some (s, rest) := by
  induction s with
  | nil => rfl
  | cons c s ih =>
    obtain ⟨h1, h2, h3⟩ := h c (by simp)
    have ih2 := ih fun x hx => h x (by simp [hx])
    unfold strChars
    split
    all_goals simp_all

/-- The three shapes a serialized in-range canonical confidence takes. -/
theorem serializeConf_form (c : DecNum) (hc : IsCanon c) (h0 : 0 ≤ c.m)
    (h1 : c.m ≤ 10 ^ c.k) :
    (c = dZero ∧ serializeConf c = ['0', '.', '0']) ∨
    (c = dOne ∧ serializeConf c = ['1', '.', '0']) ∨
    (1 ≤ c.k ∧ c.m.natAbs < 10 ^ c.k ∧
      serializeConf c = '0' :: '.' :: padDigits c.k c.m.natAbs) := by
  have hcast : ((10 ^ c.k : ℕ) : ℤ) = (10 : ℤ) ^ c.k := by push_cast; ring
  rcases Nat.eq_zero_or_pos c.k with hk | hk
  · rw [hk] at h1
    have hone : (10 : ℤ) ^ (0 : ℕ) = 1 := by norm_num
    rw [hone] at h1
    have hm : c.m = 0 ∨ c.m = 1 := by omega
    rcases hm with hm | hm
    · left
      have hcz : c = dZero := by
        cases c
        simp_all [dZero]
      rw [hcz]
      exact ⟨rfl, by decide⟩
    · right
      left
      have hco : c = dOne := by
        cases c
        simp_all [dOne]
      rw [hco]
      exact ⟨rfl, by decide⟩
  · right
    right
    have hne : c.m ≠ 10 ^ c.k := by
      intro he
      rcases hc with hk0 | hm
      · omega
      · apply hm
        have h10 : (10 : ℤ) ∣ 10 ^ c.k := dvd_pow_self 10 (by omega)
        omega
    have hlt : c.m.natAbs < 10 ^ c.k := by omega
    refine ⟨hk, hlt, ?_⟩
    unfold serializeConf
    rw [if_neg (by omega), if_neg (by omega)]
    have hdiv : c.m.natAbs / 10 ^ c.k = 0 := Nat.div_eq_of_lt hlt
    have hmod : c.m.natAbs % 10 ^ c.k = c.m.natAbs := Nat.mod_eq_of_lt hlt
    rw [hdiv, hmod, show natReprCs 0 = ['0'] from rfl]
    simp

/-- Reading back any serialized in-range canonical confidence: the raw
decimal pair re-canonicalizes to the original float. -/
theorem parseNumberToken_serializeConf (c : DecNum) (hc : IsCanon c) (h0 : 0 ≤ c.m)
    (h1 : c.m ≤ 10 ^ c.k) :
    ∃ m k,
      (∀ tail, parseNumberToken (serializeConf c ++ ',' :: tail) = some (m, k, ',' :: tail)) ∧
      canonAux m k = c ∧
      ((serializeConf c).head? = some '0' ∨ (serializeConf c).head? = some '1') := by
  rcases serializeConf_form c hc h0 h1 with ⟨hcz, hser⟩ | ⟨hco, hser⟩ | ⟨hk, hlt, hser⟩
  · refine ⟨0, 1, fun tail => ?_, ?_, ?_⟩
    · rw [hser]
      exact parseNumberToken_zero_lit tail
    · rw [hcz]
      rfl
    · rw [hser]
      left
      rfl
  · refine ⟨10, 1, fun tail => ?_, ?_, ?_⟩
    · rw [hser]
      exact parseNumberToken_one_lit tail
    · rw [hco]
      rfl
    · rw [hser]
      right
      rfl
  · refine ⟨(c.m.natAbs : ℤ), c.k, fun tail => ?_, ?_, ?_⟩
    · rw [hser]
      have hp := parseNumberToken_pad c.k c.m.natAbs hk hlt tail
      simpa [List.cons_append] using hp
    · rw [Int.natAbs_of_nonneg h0, canonAux_fixed c.m c.k hc]
    · rw [hser]
      left
      rfl

theorem skipWs_nil : skipWs [] = [] := rfl

theorem skipWs_comma (cs : List Char) : skipWs (',' :: cs) = ',' :: cs := rfl

theorem skipWs_rbrace (cs : List Char) : skipWs ('}' :: cs) = '}' :: cs := rfl

theorem parseVal_step_obj (f : ℕ) (cs : List Char) :
    (parsers (f + 1)).1 ('{' :: '"' :: cs) = (parsers f).2.1 ('"' :: cs) [] := rfl

theorem parseVal_step_str (f : ℕ) (cs : List Char) :
    (parsers (f + 1)).1 ('"' :: cs) =
      (strChars cs).map (fun p => (.str ⟨p.1⟩, p.2)) := rfl

theorem parseVal_step_true (f : ℕ) (cs : List Char) :
    (parsers (f + 1)).1 ('t' :: 'r' :: 'u' :: 'e' :: cs) = some (.bool true, cs) := rfl

theorem parseVal_step_false (f : ℕ) (cs : List Char) :
    (parsers (f + 1)).1 ('f' :: 'a' :: 'l' :: 's' :: 'e' :: cs) = some (.bool false, cs) := rfl

theorem parseVal_step_num0 (f : ℕ) (cs : List Char) :
    (parsers (f + 1)).1 ('0' :: cs) =
      (parseNumberToken ('0' :: cs)).map (fun p => (.num p.1 p.2.1, p.2.2)) := rfl

theorem parseVal_step_num1 (f : ℕ) (cs : List Char) :
    (parsers (f + 1)).1 ('1' :: cs) =
      (parseNumberToken ('1' :: cs)).map (fun p => (.num p.1 p.2.1, p.2.2)) := rfl

theorem members_step_chartType (f : ℕ) (cs : List Char) (acc : List (String × Json)) :
    (parsers (f + 1)).2.1 ('"' :: 'c' :: 'h' :: 'a' :: 'r' :: 't' :: 'T' :: 'y' :: 'p' :: 'e' :: '"' :: ':' :: cs) acc =
    (match (parsers f).1 cs with
     | none => none
     | some (v, r4) =>
       match skipWs r4 with
       | ',' :: r5 => (parsers f).2.1 r5 (acc ++ [("chartType", v)])
       | '}' :: r5 => some (.obj (acc ++ [("chartType", v)]), r5)
       | _ => none) := rfl

theorem members_step_confidence (f : ℕ) (cs : List Char) (acc : List (String × Json)) :
    (parsers (f + 1)).2.1 ('"' :: 'c' :: 'o' :: 'n' :: 'f' :: 'i' :: 'd' :: 'e' :: 'n' :: 'c' :: 'e' :: '"' :: ':' :: cs) acc =
    (match (parsers f).1 cs with
     | none => none
     | some (v, r4) =>
       match skipWs r4 with
       | ',' :: r5 => (parsers f).2.1 r5 (acc ++ [("confidence", v)])
       | '}' :: r5 => some (.obj (acc ++ [("confidence", v)]), r5)
       | _ => none) := rfl

theorem members_step_hasGrid (f : ℕ) (cs : List Char) (acc : List (String × Json)) :
    (parsers (f + 1)).2.1 ('"' :: 'h' :: 'a' :: 's' :: 'G' :: 'r' :: 'i' :: 'd' :: '"' :: ':' :: cs) acc =
    (match (parsers f).1 cs with
     | none => none
     | some (v, r4) =>
       match skipWs r4 with
       | ',' :: r5 => (parsers f).2.1 r5 (acc ++ [("hasGrid", v)])
       | '}' :: r5 => some (.obj (acc ++ [("hasGrid", v)]), r5)
       | _ => none) := rfl

set_option maxHeartbeats 2000000 in
/-- Running the JSON reader over a serialized result, at any sufficient
fuel: it returns the three-member object and consumes the whole input. -/
theorem parsers_serialized_aux (g : ℕ) (ct : String)
    (hct : ∀ ch ∈ ct.data, ¬ch = '"' ∧ ¬ch = '\\' ∧ 32 ≤ ch.toNat)
    (num : List Char) (m : ℤ) (k : ℕ) (hg : Bool)
    (hnum : ∀ tail, parseNumberToken (num ++ ',' :: tail) = some (m, k, ',' :: tail))
    (hhead : num.head? = some '0' ∨ num.head? = some '1') :
    (parsers (g + 7)).1
      ('{' :: '"' :: 'c' :: 'h' :: 'a' :: 'r' :: 't' :: 'T' :: 'y' :: 'p' :: 'e' :: '"' :: ':' :: '"' :: (ct.data ++ '"' :: ',' :: '"' :: 'c' :: 'o' :: 'n' :: 'f' :: 'i' :: 'd' :: 'e' :: 'n' :: 'c' :: 'e' :: '"' :: ':' :: (num ++ ',' :: '"' :: 'h' :: 'a' :: 's' :: 'G' :: 'r' :: 'i' :: 'd' :: '"' :: ':' :: (serializeHG hg ++ ['}'])))) =
      some (.obj [("chartType", .str ct), ("confidence", .num m k), ("hasGrid", .bool hg)],
        []) := by
  have hstr : ∀ rest, strChars (ct.data ++ '"' :: rest) = some (ct.data, rest) :=
    fun rest => strChars_append ct.data rest hct
  have hnum0 : num ≠ [] := by
    intro he
    rw [he] at hhead
    simp at hhead
  obtain ⟨c0, nt, rfl⟩ : ∃ c0 nt, num = c0 :: nt := by
    cases num with
    | nil => exact absurd rfl hnum0
    | cons a b => exact ⟨a, b, rfl⟩
  have hc0 : c0 = '0' ∨ c0 = '1' := by
    rcases hhead with hh | hh
    · left
      simpa using hh
    · right
      simpa using hh
  rcases hc0 with rfl | rfl <;> simp only [List.cons_append] at hnum <;> cases hg <;>
    simp only [show g + 7 = (g + 6) + 1 from rfl, show g + 6 = (g + 5) + 1 from rfl,
      show g + 5 = (g + 4) + 1 from rfl, show g + 4 = (g + 3) + 1 from rfl,
      show g + 3 = (g + 2) + 1 from rfl, show g + 2 = (g + 1) + 1 from rfl,
      serializeHG, List.cons_append, List.nil_append, List.append_assoc,
      parseVal_step_obj, members_step_chartType, members_step_confidence,
      members_step_hasGrid, parseVal_step_str, parseVal_step_true, parseVal_step_false,
      parseVal_step_num0, parseVal_step_num1, hstr, hnum, Option.map_some',
      skipWs_comma, skipWs_rbrace, skipWs_nil,
      show (String.mk ct.data) = ct from rfl]

theorem braceSpan_self (mid : List Char) :
    braceSpan ('{' :: (mid ++ ['}'])) = some ('{' :: (mid ++ ['}'])) := by
  have h := braceSpan_append [] mid [] (by simp) (by simp)
  simpa using h

/-- Running `json.loads` on a serialized result returns the three-member object. -/
theorem json_loads_serialized (ct : String)
    (hct : ∀ ch ∈ ct.data, ¬ch = '"' ∧ ¬ch = '\\' ∧ 32 ≤ ch.toNat)
    (num : List Char) (m : ℤ) (k : ℕ) (hg : Bool)
    (hnum : ∀ tail, parseNumberToken (num ++ ',' :: tail) = some (m, k, ',' :: tail))
    (hhead : num.head? = some '0' ∨ num.head? = some '1') :
    json_loads ('{' :: '"' :: 'c' :: 'h' :: 'a' :: 'r' :: 't' :: 'T' :: 'y' :: 'p' :: 'e' :: '"' :: ':' :: '"' :: (ct.data ++ '"' :: ',' :: '"' :: 'c' :: 'o' :: 'n' :: 'f' :: 'i' :: 'd' :: 'e' :: 'n' :: 'c' :: 'e' :: '"' :: ':' :: (num ++ ',' :: '"' :: 'h' :: 'a' :: 's' :: 'G' :: 'r' :: 'i' :: 'd' :: '"' :: ':' :: (serializeHG hg ++ ['}'])))) =
      some (.obj [("chartType", .str ct), ("confidence", .num m k), ("hasGrid", .bool hg)]) := by
  unfold json_loads
  have hlen : ('{' :: '"' :: 'c' :: 'h' :: 'a' :: 'r' :: 't' :: 'T' :: 'y' :: 'p' :: 'e' :: '"' :: ':' :: '"' :: (ct.data ++ '"' :: ',' :: '"' :: 'c' :: 'o' :: 'n' :: 'f' :: 'i' :: 'd' :: 'e' :: 'n' :: 'c' :: 'e' :: '"' :: ':' :: (num ++ ',' :: '"' :: 'h' :: 'a' :: 's' :: 'G' :: 'r' :: 'i' :: 'd' :: '"' :: ':' :: (serializeHG hg ++ ['}'])))).length + 1 = (('{' :: '"' :: 'c' :: 'h' :: 'a' :: 'r' :: 't' :: 'T' :: 'y' :: 'p' :: 'e' :: '"' :: ':' :: '"' :: (ct.data ++ '"' :: ',' :: '"' :: 'c' :: 'o' :: 'n' :: 'f' :: 'i' :: 'd' :: 'e' :: 'n' :: 'c' :: 'e' :: '"' :: ':' :: (num ++ ',' :: '"' :: 'h' :: 'a' :: 's' :: 'G' :: 'r' :: 'i' :: 'd' :: '"' :: ':' :: (serializeHG hg ++ ['}'])))).length - 6) + 7 := by
    simp only [List.length_cons, List.length_append]
    omega
  rw [hlen, parsers_serialized_aux (('{' :: '"' :: 'c' :: 'h' :: 'a' :: 'r' :: 't' :: 'T' :: 'y' :: 'p' :: 'e' :: '"' :: ':' :: '"' :: (ct.data ++ '"' :: ',' :: '"' :: 'c' :: 'o' :: 'n' :: 'f' :: 'i' :: 'd' :: 'e' :: 'n' :: 'c' :: 'e' :: '"' :: ':' :: (num ++ ',' :: '"' :: 'h' :: 'a' :: 's' :: 'G' :: 'r' :: 'i' :: 'd' :: '"' :: ':' :: (serializeHG hg ++ ['}'])))).length - 6) ct hct num m k hg hnum hhead]
  rfl

set_option maxHeartbeats 2000000 in
/-- Reading back a serialized tier-1/tier-2 style result recovers the same
candidate through the strict-JSON tier. -/
theorem parse_serialized_strict (ct : String) (hA : ct ∈ ALLOWED) (c : DecNum)
    (hc : IsCanon c) (h0 : 0 ≤ c.m) (h1 : c.m ≤ 10 ^ c.k) (hg : Bool) :
    parse_json_from_text (serializeResult ⟨some ct, c, hg⟩) = some ⟨ct, c, some hg⟩ := by
  have hct : ∀ ch ∈ ct.data, ¬ch = '"' ∧ ¬ch = '\\' ∧ 32 ≤ ch.toNat := by
    have hall : ∀ s ∈ ALLOWED, ∀ ch ∈ s.data, ¬ch = '"' ∧ ¬ch = '\\' ∧ 32 ≤ ch.toNat := by
      decide
    exact hall ct hA
  obtain ⟨m, k, hnum, hcanon, hhead⟩ := parseNumberToken_serializeConf c hc h0 h1
  have hstrip : pyStrip (pyLower ct) = ct := by
    have hall : ∀ s ∈ ALLOWED, pyStrip (pyLower s) = s := by decide
    exact hall ct hA
  have hdata : (serializeResult ⟨some ct, c, hg⟩).data =
      ('{' :: '"' :: 'c' :: 'h' :: 'a' :: 'r' :: 't' :: 'T' :: 'y' :: 'p' :: 'e' :: '"' :: ':' :: '"' :: (ct.data ++ '"' :: ',' :: '"' :: 'c' :: 'o' :: 'n' :: 'f' :: 'i' :: 'd' :: 'e' :: 'n' :: 'c' :: 'e' :: '"' :: ':' :: ((serializeConf c) ++ ',' :: '"' :: 'h' :: 'a' :: 's' :: 'G' :: 'r' :: 'i' :: 'd' :: '"' :: ':' :: (serializeHG hg ++ ['}'])))) := by
    simp [serializeResult, serializeCt, List.cons_append, List.append_assoc,
      show "chartType".data = ['c', 'h', 'a', 'r', 't', 'T', 'y', 'p', 'e'] from rfl,
      show "confidence".data = ['c', 'o', 'n', 'f', 'i', 'd', 'e', 'n', 'c', 'e'] from rfl,
      show "hasGrid".data = ['h', 'a', 's', 'G', 'r', 'i', 'd'] from rfl]
  have hmid : ('{' :: '"' :: 'c' :: 'h' :: 'a' :: 'r' :: 't' :: 'T' :: 'y' :: 'p' :: 'e' :: '"' :: ':' :: '"' :: (ct.data ++ '"' :: ',' :: '"' :: 'c' :: 'o' :: 'n' :: 'f' :: 'i' :: 'd' :: 'e' :: 'n' :: 'c' :: 'e' :: '"' :: ':' :: ((serializeConf c) ++ ',' :: '"' :: 'h' :: 'a' :: 's' :: 'G' :: 'r' :: 'i' :: 'd' :: '"' :: ':' :: (serializeHG hg ++ ['}'])))) = '{' :: (('"' :: 'c' :: 'h' :: 'a' :: 'r' :: 't' :: 'T' :: 'y' :: 'p' :: 'e' :: '"' :: ':' :: '"' :: (ct.data ++ '"' :: ',' :: '"' :: 'c' :: 'o' :: 'n' :: 'f' :: 'i' :: 'd' :: 'e' :: 'n' :: 'c' :: 'e' :: '"' :: ':' :: ((serializeConf c) ++ ',' :: '"' :: 'h' :: 'a' :: 's' :: 'G' :: 'r' :: 'i' :: 'd' :: '"' :: ':' :: serializeHG hg))) ++ ['}']) := by
    simp [List.cons_append, List.append_assoc]
  have hspan : braceSpan (serializeResult ⟨some ct, c, hg⟩).data = some ('{' :: '"' :: 'c' :: 'h' :: 'a' :: 'r' :: 't' :: 'T' :: 'y' :: 'p' :: 'e' :: '"' :: ':' :: '"' :: (ct.data ++ '"' :: ',' :: '"' :: 'c' :: 'o' :: 'n' :: 'f' :: 'i' :: 'd' :: 'e' :: 'n' :: 'c' :: 'e' :: '"' :: ':' :: ((serializeConf c) ++ ',' :: '"' :: 'h' :: 'a' :: 's' :: 'G' :: 'r' :: 'i' :: 'd' :: '"' :: ':' :: (serializeHG hg ++ ['}'])))) := by
    rw [hdata, hmid, braceSpan_self]
  have hloads := json_loads_serialized ct hct (serializeConf c) m k hg hnum hhead
  have hget_ct : extractCt [("chartType", .str ct), ("confidence", .num m k),
      ("hasGrid", .bool hg)] = ct := by
    unfold extractCt
    rw [show pyGet [("chartType", Json.str ct), ("confidence", Json.num m k),
      ("hasGrid", Json.bool hg)] "chartType" = some (Json.str ct) from rfl]
    exact hstrip
  have hget_conf : extractConf [("chartType", .str ct), ("confidence", .num m k),
      ("hasGrid", .bool hg)] = some c := by
    unfold extractConf
    rw [show pyGet [("chartType", Json.str ct), ("confidence", Json.num m k),
      ("hasGrid", Json.bool hg)] "confidence" = some (Json.num m k) from rfl]
    simp [pyFloat, hcanon]
  have hget_hg : extractHG [("chartType", .str ct), ("confidence", .num m k),
      ("hasGrid", .bool hg)] = some hg := rfl
  unfold parse_json_from_text
  simp only [hspan, hloads]
  simp only [hget_conf, hget_ct, hget_hg]
  rw [if_pos hA, clampConf_id c hc h0 h1]

/-- Every Normalizer output is the abstention result or a well-formed
labelled result with an in-range canonical confidence. -/
theorem classify_shape (t : String) :
    classify t = abstainResult ∨
      ∃ ct c hg, classify t = ⟨some ct, c, hg⟩ ∧ ct ∈ ALLOWED ∧ IsCanon c ∧
        0 ≤ c.m ∧ c.m ≤ 10 ^ c.k := by
  rcases hp : parse_json_from_text t with - | p
  · rcases hm : map_text_to_label t with - | m
    · exact Or.inl (classify_eq_abstain t hp hm)
    · right
      refine ⟨m.chartType, m.confidence, false, classify_eq_kw t m hp hm,
        (map_text_to_label_spec t m hm).1, ?_⟩
      rw [(map_text_to_label_spec t m hm).2]
      exact ⟨by decide, by decide, by decide⟩
  · right
    obtain ⟨hA, c0, hc0, hconf⟩ := parse_json_from_text_spec t p hp
    obtain ⟨h1, h2, h3⟩ := clampConf_range c0 hc0
    exact ⟨p.chartType, p.confidence, p.hasGrid.getD false, classify_eq_strict t p hp, hA,
      hconf ▸ h1, hconf ▸ h2, hconf ▸ h3⟩

theorem roundtrip_strict (ct : String) (hA : ct ∈ ALLOWED) (c : DecNum) (hc : IsCanon c)
    (h0 : 0 ≤ c.m) (h1 : c.m ≤ 10 ^ c.k) (hg : Bool) :
    classify (serializeResult ⟨some ct, c, hg⟩) = ⟨some ct, c, hg⟩ := by
  rw [classify_eq_strict _ _ (parse_serialized_strict ct hA c hc h0 h1 hg)]
  rfl

theorem roundtrip_abstain : classify (serializeResult abstainResult) = abstainResult := by
  decide

/-- C4: the Normalizer is idempotent under round-trip: re-running it on
the JSON serialization of its own output reproduces the identical
result, whichever tier (strict JSON, keyword, or abstention) produced the
original. -/
theorem C4_roundtrip_idempotent (t : String) :
    classify (serializeResult (classify t)) = classify t := by
  rcases classify_shape t with h | ⟨ct, c, hg, h, hA, hc, h0, h1⟩
  · rw [h]
    exact roundtrip_abstain
  · rw [h]
    exact roundtrip_strict ct hA c hc h0 h1 hg

end VisionServer
